import Mathlib

/-!
Verification development for the FlowState BCI signal-to-decision pipeline
(FlowState_SimulatedEEG_Test.py). Samples are modelled as rationals. The
floating-point library primitives whose coefficients are irrational (the
zero-phase notch filter, the square root used by np.std, and the DFT trig
kernels of scipy rfft) are abstracted as parameters of the model in the
structure Prim; every definition below is otherwise a direct transcription
of the Python source.
-/

namespace FlowState

/-- Mean of a list of rationals (np.mean); 0 on the empty list. -/
def listMean (l : List ℚ) : ℚ := l.sum / l.length

/-- Maximum absolute value of a list (np.max(np.abs(data))); 0 on the empty
list. For nonempty lists this agrees with numpy because absolute values are
nonnegative. -/
def maxAbs (l : List ℚ) : ℚ := (l.map (fun a => |a|)).foldr max 0

/-- Successive differences (np.diff). -/
def diffs : List ℚ → List ℚ
  | a :: b :: t => (b - a) :: diffs (b :: t)
  | _ => []

/-- Last n elements of a list, in order: the contents of a deque with
maxlen n after appending the whole list one element at a time. -/
def takeLast (n : ℕ) (l : List ℚ) : List ℚ := (l.reverse.take n).reverse

/-- Floating-point library primitives of the source, abstracted: the
zero-phase (filtfilt) 60 Hz notch filter, the square root used by np.std,
and the cosine/sine DFT kernels of scipy.fft.rfft (dftC k n stands for
cos(2*pi*k*n/N), dftS for the corresponding sine). Their coefficients are
irrational, so they enter the model as parameters. -/
structure Prim where
  notch : List ℚ → List ℚ
  sqrtQ : ℚ → ℚ
  dftC : ℕ → ℕ → ℚ
  dftS : ℕ → ℕ → ℚ

/-- Concrete instantiation used to evaluate the model at test points. -/
def primTest : Prim :=
  { notch := id
    sqrtQ := id
    dftC := fun _ n => if n = 0 then 1 else 0
    dftS := fun _ _ => 0 }

/-- State of ThetaProcessor: per-channel rolling buffers (a Python dict,
modelled as an association list in insertion order), the baseline mean and
standard deviation (both None until calibration; the source always sets the
two together), and the bounded power history (deque maxlen=300). -/
structure ProcState where
  buffers : List (String × List ℚ)
  baselineMean : Option ℚ
  baselineStd : Option ℚ
  powerHistory : List ℚ
deriving DecidableEq

def initProcState : ProcState := ⟨[], none, none, []⟩

/-- Dict lookup on the buffer map. -/
def lookupBuf (bs : List (String × List ℚ)) (ch : String) : Option (List ℚ) :=
  (bs.find? (fun p => p.1 = ch)).map Prod.snd

/-- Dict write: update in place when the key exists, append otherwise
(Python dict insertion-order semantics). -/
def setBuf : List (String × List ℚ) → String → List ℚ → List (String × List ℚ)
  | [], ch, b => [(ch, b)]
  | (c, old) :: t, ch, b =>
      if c = ch then (ch, b) :: t else (c, old) :: setBuf t ch b

/-- ThetaProcessor.update: append the samples to the channel deque
(maxlen = window size W), creating the deque on first use. Appending one
sample at a time to a deque of maxlen W leaves exactly the last W elements
of old ++ samples. -/
def update (W : ℕ) (st : ProcState) (ch : String) (samples : List ℚ) : ProcState :=
  let old := (lookupBuf st.buffers ch).getD []
  { st with buffers := setBuf st.buffers ch (takeLast W (old ++ samples)) }

/-- ThetaProcessor.preprocess: subtract the window mean, then apply the
zero-phase notch filter. -/
def preprocess (prim : Prim) (data : List ℚ) : List ℚ :=
  prim.notch (data.map (fun x => x - listMean data))

/-- Dot product of a kernel row with a window (index-weighted sum). -/
def kdot (f : ℕ → ℚ) (x : List ℚ) : ℚ :=
  (x.enum.map (fun p => f p.1 * p.2)).sum

/-- Squared magnitude of DFT bin k: real and imaginary parts squared. -/
def binEnergy (prim : Prim) (k : ℕ) (x : List ℚ) : ℚ :=
  kdot (prim.dftC k) x ^ 2 + kdot (prim.dftS k) x ^ 2

/-- Indices k of the rfft bins (k = 0 .. n/2) whose frequency k*fs/n lies
in the theta band [4 Hz, 8 Hz] inclusive (the mask
(freqs >= 4) & (freqs <= 8) over rfftfreq(n, 1/fs)). -/
def thetaBins (fs n : ℕ) : List ℕ :=
  (List.range (n / 2 + 1)).filter (fun k => decide (4 * n ≤ k * fs) && decide (k * fs ≤ 8 * n))

/-- Average of the squared DFT magnitudes over the theta-band bins
(np.mean(fft_vals[theta_mask])). -/
def spectralThetaPower (prim : Prim) (fs n : ℕ) (x : List ℚ) : ℚ :=
  listMean ((thetaBins fs n).map (fun k => binEnergy prim k x))

/-- Body of ThetaProcessor.calculate_theta_power once the buffer is in
hand: None when the buffer is not full; otherwise preprocess, reject when
the preprocessed amplitude exceeds 100, else the theta-band FFT power. The
theta bandpass filter (extract_theta) is never invoked here, matching the
source. -/
def calcThetaPowerBuf (prim : Prim) (W fs : ℕ) (buf : List ℚ) : Option ℚ :=
  if buf.length < W then none
  else
    let d := preprocess prim buf
    if 100 < maxAbs d then none
    else some (spectralThetaPower prim fs buf.length d)

/-- ThetaProcessor.calculate_theta_power: None for an unknown channel,
otherwise the buffer computation. -/
def calculateThetaPower (prim : Prim) (W fs : ℕ) (st : ProcState) (ch : String) : Option ℚ :=
  match lookupBuf st.buffers ch with
  | none => none
  | some buf => calcThetaPowerBuf prim W fs buf

/-- Append to the bounded power history (deque maxlen=300). -/
def pushHistory (h : List ℚ) (p : ℚ) : List ℚ := takeLast 300 (h ++ [p])

/-- ThetaProcessor.calculate_average_theta_power: collect the defined
per-channel powers in dict order, return None when none qualify, otherwise
append the average to the power history and return it. -/
def calculateAverageThetaPower (prim : Prim) (W fs : ℕ) (st : ProcState) :
    Option ℚ × ProcState :=
  let powers := st.buffers.filterMap (fun p => calcThetaPowerBuf prim W fs p.2)
  if powers.isEmpty then (none, st)
  else
    let avg := listMean powers
    (some avg, { st with powerHistory := pushHistory st.powerHistory avg })

/-- ThetaProcessor.set_baseline. -/
def setBaseline (st : ProcState) (mean std : ℚ) : ProcState :=
  { st with baselineMean := some mean, baselineStd := some std }

/-- Population variance: mean of squared deviations from the mean. np.std
is the square root of this. -/
def popVar (l : List ℚ) : ℚ := listMean (l.map (fun x => (x - listMean l) ^ 2))

/-- ThetaProcessor.calculate_baseline_from_history: requires at least 10
recorded values; stores mean and population standard deviation (np.std =
sqrt of population variance) over the whole history and reports success. -/
def calculateBaselineFromHistory (prim : Prim) (st : ProcState) : Bool × ProcState :=
  if st.powerHistory.length < 10 then (false, st)
  else
    (true, { st with baselineMean := some (listMean st.powerHistory),
                     baselineStd := some (prim.sqrtQ (popVar st.powerHistory)) })

/-- ThetaProcessor.get_theta_z_score: compute the average power (with its
history side effect); None when the power or the baseline mean is unset,
else (power - mean) / std. The source sets mean and std together, so the
match on both options is exhaustive on reachable states. -/
def getThetaZScore (prim : Prim) (W fs : ℕ) (st : ProcState) : Option ℚ × ProcState :=
  let r := calculateAverageThetaPower prim W fs st
  match r.1, r.2.baselineMean, r.2.baselineStd with
  | some p, some m, some s => (some ((p - m) / s), r.2)
  | _, _, _ => (none, r.2)

/-- Thresholding of the z-score in ThetaProcessor.get_theta_state. -/
def classifyZ (z : ℚ) : String :=
  if 1 < z then "high" else if z < -1 then "low" else "normal"

/-- ThetaProcessor.get_theta_state: a fresh z-score query (with its own
history side effect), thresholded at plus and minus 1. -/
def getThetaState (prim : Prim) (W fs : ℕ) (st : ProcState) : Option String × ProcState :=
  let r := getThetaZScore prim W fs st
  (r.1.map classifyZ, r.2)

/-- ArtifactRejector.is_clean: windows shorter than 10 samples are
rejected; then the amplitude threshold (100) and the gradient threshold
(50) over successive differences. -/
def isClean (data : List ℚ) : Bool :=
  if data.length < 10 then false
  else if 100 < maxAbs data then false
  else if 50 < maxAbs (diffs data) then false
  else true

/-- ArtifactRejector.get_artifact_type: amplitude checked before gradient;
no minimum-length check. np.max over an empty array raises, modelled as
none (reachable only for windows of length 0, or length 1 passing the
amplitude test). -/
def getArtifactType (data : List ℚ) : Option String :=
  if data.isEmpty then none
  else if 100 < maxAbs data then some "amplitude"
  else if (diffs data).isEmpty then none
  else if 50 < maxAbs (diffs data) then some "gradient"
  else some "clean"

/-- Closed-loop controller parameters (SimulatedClosedLoop attributes). -/
structure LoopConfig where
  thresholdZ : ℚ
  minDuration : ℚ
  cooldown : ℚ
deriving DecidableEq

/-- Defaults set in SimulatedClosedLoop.__init__. -/
def defaultLoopConfig : LoopConfig := ⟨-1/2, 5, 10⟩

/-- Controller state: the entrainment flag and the two timestamps. -/
structure LoopState where
  active : Bool
  startTime : ℚ
  lastEnd : ℚ
deriving DecidableEq

def initLoopState : LoopState := ⟨false, 0, 0⟩

/-- SimulatedClosedLoop._closed_loop_decision: when ACTIVE, deactivate
exactly when the minimum duration has elapsed and z > 0, recording the end
time; when INACTIVE, activate exactly when z is below the low threshold
and the cooldown has strictly elapsed, recording the start time. -/
def closedLoopDecision (cfg : LoopConfig) (z now : ℚ) (s : LoopState) : LoopState :=
  if s.active then
    if cfg.minDuration ≤ now - s.startTime ∧ 0 < z then
      { active := false, startTime := s.startTime, lastEnd := now }
    else s
  else
    if z < cfg.thresholdZ ∧ cfg.cooldown < now - s.lastEnd then
      { active := true, startTime := now, lastEnd := s.lastEnd }
    else s

/-- One decision cycle of SimulatedClosedLoop.run_session: ingest the
chunk for each channel, query the z-score, then the theta state (a second
query), and run the closed-loop decision only when the z-score is defined. -/
def sessionCycle (prim : Prim) (W fs : ℕ) (cfg : LoopConfig)
    (chunk : List (String × List ℚ)) (now : ℚ) (st : ProcState) (ctrl : LoopState) :
    ProcState × LoopState :=
  let st1 := chunk.foldl (fun s p => update W s p.1 p.2) st
  let r1 := getThetaZScore prim W fs st1
  let r2 := getThetaState prim W fs r1.2
  match r1.1 with
  | none => (r2.2, ctrl)
  | some z => (r2.2, closedLoopDecision cfg z now ctrl)

/-- Band Power Estimator as the spec words it (section 4.3): first apply
the theta bandpass filter (zero-phase) to the preprocessed window, then
DFT, squared magnitudes, average over the theta bins; undefined when the
window is not full. The theta filter enters as a parameter like the other
float primitives. -/
def specBandPower (prim : Prim) (thetaF : List ℚ → List ℚ) (W fs : ℕ) (buf : List ℚ) :
    Option ℚ :=
  if buf.length < W then none
  else some (spectralThetaPower prim fs buf.length (thetaF (preprocess prim buf)))

/-- Test fixture: a full two-sample window with zero mean. -/
def bufPM : List ℚ := [1, -1]

/-- Test fixture: one channel holding bufPM, no baseline. -/
def stNoBase : ProcState := ⟨[("ch0", bufPM)], none, none, []⟩

/-- Test fixture: one channel holding bufPM, baseline mean 0 and std 1. -/
def stBase : ProcState := ⟨[("ch0", bufPM)], some 0, some 1, []⟩

/-- Test fixture: a full 20-sample window of constant 150 microvolts (raw
amplitude above the 100 threshold; zero after mean removal). -/
def hotBuf : List ℚ :=
  [150, 150, 150, 150, 150, 150, 150, 150, 150, 150,
   150, 150, 150, 150, 150, 150, 150, 150, 150, 150]

/-- Test fixture: one channel holding hotBuf. -/
def stHot : ProcState := ⟨[("ch0", hotBuf)], none, none, []⟩

/-- Test fixture: a full 20-sample window alternating between 1000 and
-1000 (zero mean, amplitude far above the in-code 100 guard). -/
def cexBuf : List ℚ :=
  [1000, -1000, 1000, -1000, 1000, -1000, 1000, -1000, 1000, -1000,
   1000, -1000, 1000, -1000, 1000, -1000, 1000, -1000, 1000, -1000]

/-- Test fixture: a power history of ten identical values. -/
def constHistState : ProcState := ⟨[], none, none, [5, 5, 5, 5, 5, 5, 5, 5, 5, 5]⟩

/- ### Helper lemmas -/

theorem takeLast_length (n : ℕ) (l : List ℚ) : (takeLast n l).length = min n l.length := by
  simp [takeLast]

theorem takeLast_of_length_le (n : ℕ) (l : List ℚ) (h : l.length ≤ n) : takeLast n l = l := by
  rw [takeLast, List.take_of_length_le (by simpa using h), List.reverse_reverse]

theorem exists_prefix_takeLast (n : ℕ) (l : List ℚ) :
    ∃ pre, l = pre ++ takeLast n l := by
  refine ⟨(l.reverse.drop n).reverse, ?_⟩
  rw [takeLast, ← List.reverse_append, List.take_append_drop, List.reverse_reverse]

theorem takeLast_takeLast_append (n : ℕ) (a b : List ℚ) :
    takeLast n (takeLast n a ++ b) = takeLast n (a ++ b) := by
  rw [takeLast, takeLast, takeLast, List.reverse_append, List.reverse_reverse,
    List.reverse_append]
  congr 1
  rw [List.take_append_eq_append_take, List.take_append_eq_append_take, List.take_take]
  congr 2
  omega

theorem lookup_setBuf_self (bs : List (String × List ℚ)) (ch : String) (b : List ℚ) :
    lookupBuf (setBuf bs ch b) ch = some b := by
  induction bs with
  | nil => simp [setBuf, lookupBuf]
  | cons p t ih =>
      by_cases h : p.1 = ch
      · simp [setBuf, lookupBuf, h]
      · cases p with
        | mk c old =>
            simp only at h
            simp [setBuf, lookupBuf, h, List.find?] at ih ⊢
            simpa [lookupBuf] using ih

theorem mem_setBuf (bs : List (String × List ℚ)) (ch : String) (b : List ℚ)
    (q : String × List ℚ) (hq : q ∈ setBuf bs ch b) : q = (ch, b) ∨ q ∈ bs := by
  induction bs with
  | nil => simpa [setBuf] using hq
  | cons p t ih =>
      cases p with
      | mk c old =>
          by_cases h : c = ch
          · rw [setBuf, if_pos h] at hq
            rcases List.mem_cons.mp hq with h1 | h1
            · exact Or.inl h1
            · exact Or.inr (List.mem_cons_of_mem _ h1)
          · rw [setBuf, if_neg h] at hq
            rcases List.mem_cons.mp hq with h1 | h1
            · exact Or.inr (h1 ▸ List.mem_cons_self _ _)
            · rcases ih h1 with h2 | h2
              · exact Or.inl h2
              · exact Or.inr (List.mem_cons_of_mem _ h2)

theorem update_lookup (W : ℕ) (st : ProcState) (ch : String) (xs : List ℚ) :
    lookupBuf (update W st ch xs).buffers ch =
      some (takeLast W ((lookupBuf st.buffers ch).getD [] ++ xs)) :=
  lookup_setBuf_self _ _ _

theorem listMean_nonneg (l : List ℚ) (h : ∀ x ∈ l, 0 ≤ x) : 0 ≤ listMean l := by
  exact div_nonneg (List.sum_nonneg h) (by positivity)

theorem spectralThetaPower_nonneg (prim : Prim) (fs n : ℕ) (x : List ℚ) :
    0 ≤ spectralThetaPower prim fs n x := by
  refine listMean_nonneg _ ?_
  intro y hy
  rcases List.mem_map.mp hy with ⟨k, _, rfl⟩
  have := sq_nonneg (kdot (prim.dftC k) x)
  have := sq_nonneg (kdot (prim.dftS k) x)
  unfold binEnergy
  positivity

/-- The average power computation touches only the power history. -/
theorem avg_preserves (prim : Prim) (W fs : ℕ) (st : ProcState) :
    (calculateAverageThetaPower prim W fs st).2.buffers = st.buffers ∧
    (calculateAverageThetaPower prim W fs st).2.baselineMean = st.baselineMean ∧
    (calculateAverageThetaPower prim W fs st).2.baselineStd = st.baselineStd := by
  rw [calculateAverageThetaPower]
  split <;> simp

/-- Projection of the average onto its returned value. -/
theorem avg_fst (prim : Prim) (W fs : ℕ) (st : ProcState) :
    (calculateAverageThetaPower prim W fs st).1 =
      if (st.buffers.filterMap (fun p => calcThetaPowerBuf prim W fs p.2)).isEmpty then none
      else some (listMean (st.buffers.filterMap (fun p => calcThetaPowerBuf prim W fs p.2))) := by
  simp only [calculateAverageThetaPower]
  split <;> rfl

/-- The first component of the average depends only on the buffers. -/
theorem avg_fst_history_free (prim : Prim) (W fs : ℕ) (st : ProcState) (h : List ℚ) :
    (calculateAverageThetaPower prim W fs { st with powerHistory := h }).1 =
      (calculateAverageThetaPower prim W fs st).1 := by
  rw [avg_fst, avg_fst]

/-- When the average is defined, the new state is the old one with the
average pushed to the history. -/
theorem avg_snd_of_some (prim : Prim) (W fs : ℕ) (st : ProcState) (p : ℚ)
    (hp : (calculateAverageThetaPower prim W fs st).1 = some p) :
    (calculateAverageThetaPower prim W fs st).2 =
      { st with powerHistory := pushHistory st.powerHistory p } := by
  have hfst := (avg_fst prim W fs st).symm.trans hp
  by_cases he : (st.buffers.filterMap (fun p => calcThetaPowerBuf prim W fs p.2)).isEmpty
  · rw [if_pos he] at hfst
    exact absurd hfst (by simp)
  · rw [if_neg he] at hfst
    have hm := Option.some.inj hfst
    simp only [calculateAverageThetaPower]
    rw [if_neg he, hm]

/-- The z-score query returns the state produced by the average power
computation. -/
theorem zscore_snd (prim : Prim) (W fs : ℕ) (st : ProcState) :
    (getThetaZScore prim W fs st).2 = (calculateAverageThetaPower prim W fs st).2 := by
  rw [getThetaZScore]
  split <;> rfl

theorem state_snd (prim : Prim) (W fs : ℕ) (st : ProcState) :
    (getThetaState prim W fs st).2 = (getThetaZScore prim W fs st).2 := rfl

/-- Concrete evaluation: the power of the fixture window. -/
theorem calc_bufPM : calcThetaPowerBuf primTest 2 200 bufPM = some 0 := by
  rw [calcThetaPowerBuf]
  norm_num [bufPM, preprocess, primTest, listMean, maxAbs, spectralThetaPower,
    (by decide : thetaBins 200 2 = [])]

/-- Concrete evaluation: the fixture average power is defined and zero. -/
theorem avg_stNoBase : (calculateAverageThetaPower primTest 2 200 stNoBase).1 = some 0 := by
  rw [calculateAverageThetaPower]
  simp [stNoBase, calc_bufPM, listMean]

/- ### Claim theorems -/

/-- C1: with a defined z-score, the controller activates from INACTIVE
exactly when z is below the low threshold and the cooldown has strictly
elapsed since the last entrainment end (recording the start time), it
deactivates from ACTIVE exactly when the minimum duration has elapsed and
z is strictly positive (recording the end time), and under every other
input combination the state and both timestamps are unchanged. -/
theorem c1_closed_loop_transitions (cfg : LoopConfig) (z now : ℚ) (s : LoopState) :
    (s.active = false →
      ((z < cfg.thresholdZ ∧ cfg.cooldown < now - s.lastEnd →
          closedLoopDecision cfg z now s = ⟨true, now, s.lastEnd⟩) ∧
        (¬(z < cfg.thresholdZ ∧ cfg.cooldown < now - s.lastEnd) →
          closedLoopDecision cfg z now s = s))) ∧
    (s.active = true →
      ((cfg.minDuration ≤ now - s.startTime ∧ 0 < z →
          closedLoopDecision cfg z now s = ⟨false, s.startTime, now⟩) ∧
        (¬(cfg.minDuration ≤ now - s.startTime ∧ 0 < z) →
          closedLoopDecision cfg z now s = s))) := by
  constructor
  · intro ha
    constructor
    · intro hc
      rw [closedLoopDecision, if_neg (by simp [ha]), if_pos hc]
    · intro hc
      rw [closedLoopDecision, if_neg (by simp [ha]), if_neg hc]
  · intro ha
    constructor
    · intro hc
      rw [closedLoopDecision, if_pos ha, if_pos hc]
    · intro hc
      rw [closedLoopDecision, if_pos ha, if_neg hc]

/-- Witness for C1: from the initial INACTIVE state, z = -1 at time 20
activates entrainment and records the start time. -/
theorem c1_witness :
    closedLoopDecision defaultLoopConfig (-1) 20 initLoopState = ⟨true, 20, 0⟩ := by
  have h := (c1_closed_loop_transitions defaultLoopConfig (-1) 20 initLoopState).1 rfl
  exact h.1 (by norm_num [defaultLoopConfig, initLoopState])

/-- C4 (code bug): a power history of ten identical values makes baseline
derivation report success and store a standard deviation of exactly zero
(the square root of a zero variance); the stored baseline std is therefore
not strictly positive, and the z-score division downstream divides by it. -/
theorem c4_zero_variance_stored (prim : Prim) (h0 : prim.sqrtQ 0 = 0) :
    (calculateBaselineFromHistory prim constHistState).1 = true ∧
    (calculateBaselineFromHistory prim constHistState).2.baselineStd = some 0 := by
  have hm : listMean constHistState.powerHistory = 5 := by
    norm_num [constHistState, listMean]
  have hv : popVar constHistState.powerHistory = 0 := by
    rw [popVar, hm]
    norm_num [constHistState, listMean]
  rw [calculateBaselineFromHistory, if_neg (by norm_num [constHistState])]
  simp [hv, h0]

/-- Witness for C4 at the concrete primitive instantiation (sqrt 0 = 0
holds for the real square root). -/
theorem c4_witness :
    (calculateBaselineFromHistory primTest constHistState).1 = true ∧
    (calculateBaselineFromHistory primTest constHistState).2.baselineStd = some 0 :=
  c4_zero_variance_stored primTest rfl

/-- C6: deriving the baseline from fewer than 10 history values returns
false and leaves the whole state (baseline included) unchanged; with at
least 10 values it returns true and stores the mean and the population
standard deviation (square root of the population variance) of the entire
history. -/
theorem c6_baseline_derivation (prim : Prim) (st : ProcState) :
    (st.powerHistory.length < 10 → calculateBaselineFromHistory prim st = (false, st)) ∧
    (10 ≤ st.powerHistory.length →
      calculateBaselineFromHistory prim st =
        (true, { st with baselineMean := some (listMean st.powerHistory),
                         baselineStd := some (prim.sqrtQ (popVar st.powerHistory)) })) := by
  constructor
  · intro h
    rw [calculateBaselineFromHistory, if_pos h]
  · intro h
    rw [calculateBaselineFromHistory, if_neg (by omega)]

/-- Witness for C6: a one-entry history is refused with the state intact,
and the ten-entry constant history stores its mean and deviation. -/
theorem c6_witness :
    calculateBaselineFromHistory primTest ⟨[], some 3, some 7, [2]⟩ =
      (false, ⟨[], some 3, some 7, [2]⟩) ∧
    calculateBaselineFromHistory primTest constHistState =
      (true, { constHistState with
                baselineMean := some (listMean constHistState.powerHistory),
                baselineStd := some (primTest.sqrtQ (popVar constHistState.powerHistory)) }) := by
  constructor
  · exact (c6_baseline_derivation primTest ⟨[], some 3, some 7, [2]⟩).1 (by norm_num)
  · exact (c6_baseline_derivation primTest constHistState).2 (by norm_num [constHistState])

/-- C8: when the z-score of a cycle is undefined, the decision step is
skipped entirely: the entrainment flag and both timestamps are exactly as
they were before the cycle (the undefined score is never read as zero). -/
theorem c8_undefined_z_skips (prim : Prim) (W fs : ℕ) (cfg : LoopConfig)
    (chunk : List (String × List ℚ)) (now : ℚ) (st : ProcState) (ctrl : LoopState)
    (h : (getThetaZScore prim W fs (chunk.foldl (fun s p => update W s p.1 p.2) st)).1 = none) :
    (sessionCycle prim W fs cfg chunk now st ctrl).2 = ctrl := by
  simp only [sessionCycle]
  rw [h]

/-- Witness for C8: with no samples ingested the z-score is undefined and
the controller state survives the cycle untouched. -/
theorem c8_witness :
    (sessionCycle primTest 2 200 defaultLoopConfig [] 17 initProcState initLoopState).2 =
      initLoopState := by
  refine c8_undefined_z_skips primTest 2 200 defaultLoopConfig [] 17 initProcState initLoopState ?_
  simp [getThetaZScore, calculateAverageThetaPower, initProcState]

/-- Concrete evaluation: the fixture average power is defined and zero for
any baseline fields and history. -/
theorem avg_fixture (bm bs : Option ℚ) (h : List ℚ) :
    (calculateAverageThetaPower primTest 2 200 ⟨[("ch0", bufPM)], bm, bs, h⟩).1 = some 0 := by
  rw [avg_fst]
  simp [calc_bufPM, listMean]

/-- C5: with a baseline (mean, std) set and a defined average power p, the
z-score is (p - mean) / std (stated away from the zero-std divergence
point, where float semantics differ); the z-score is undefined when the
baseline mean is unset or when no channel qualifies; the categorical state
is the classification of the z-score, which is high exactly when z > 1,
low exactly when z < -1, and normal otherwise. -/
theorem c5_zscore_classification (prim : Prim) (W fs : ℕ) (st : ProcState) (p m s : ℚ) :
    ((calculateAverageThetaPower prim W fs st).1 = some p → st.baselineMean = some m →
      st.baselineStd = some s → s ≠ 0 →
      (getThetaZScore prim W fs st).1 = some ((p - m) / s)) ∧
    (st.baselineMean = none → (getThetaZScore prim W fs st).1 = none) ∧
    ((calculateAverageThetaPower prim W fs st).1 = none →
      (getThetaZScore prim W fs st).1 = none) ∧
    ((getThetaState prim W fs st).1 = ((getThetaZScore prim W fs st).1).map classifyZ) ∧
    (∀ z : ℚ, (classifyZ z = "high" ↔ 1 < z) ∧ (classifyZ z = "low" ↔ z < -1) ∧
      (classifyZ z = "normal" ↔ ¬1 < z ∧ ¬z < -1)) := by
  have hbm := (avg_preserves prim W fs st).2.1
  have hbs := (avg_preserves prim W fs st).2.2
  refine ⟨?_, ?_, ?_, rfl, ?_⟩
  · intro hp hm hs _
    simp only [getThetaZScore]
    rw [hp, hbm, hm, hbs, hs]
  · intro hb
    simp only [getThetaZScore]
    rw [hbm, hb]
    rcases h1 : (calculateAverageThetaPower prim W fs st).1 with _ | q <;> simp
  · intro hp
    simp only [getThetaZScore]
    rw [hp]
  · intro z
    refine ⟨?_, ?_, ?_⟩ <;> unfold classifyZ <;> split_ifs with h1 h2 <;>
      (simp_all; try linarith)

/-- Witness for C5: the fixture state with baseline (0, 1) yields the
z-score (0 - 0) / 1. -/
theorem c5_witness :
    (getThetaZScore primTest 2 200 stBase).1 = some ((0 - 0) / 1) :=
  (c5_zscore_classification primTest 2 200 stBase 0 0 1).1
    (avg_fixture (some 0) (some 1) []) rfl rfl (by norm_num)

/-- C10: whenever at least one channel qualifies (the average power is
defined), both the z-score query and the theta-state query push that
average onto the bounded power history as a side effect, even when no
baseline is set and the query itself returns undefined; a cycle querying
both therefore appends two entries. -/
theorem c10_history_side_effect (prim : Prim) (W fs : ℕ) (st : ProcState) (p : ℚ)
    (hp : (calculateAverageThetaPower prim W fs st).1 = some p) :
    (getThetaZScore prim W fs st).2.powerHistory = pushHistory st.powerHistory p ∧
    (getThetaState prim W fs st).2.powerHistory = pushHistory st.powerHistory p ∧
    (st.baselineMean = none → (getThetaZScore prim W fs st).1 = none) ∧
    (getThetaState prim W fs ((getThetaZScore prim W fs st).2)).2.powerHistory =
      pushHistory (pushHistory st.powerHistory p) p := by
  have hsnd := avg_snd_of_some prim W fs st p hp
  have hz2 : (getThetaZScore prim W fs st).2 =
      { st with powerHistory := pushHistory st.powerHistory p } := by
    rw [zscore_snd, hsnd]
  refine ⟨by rw [hz2], by rw [state_snd, hz2], ?_, ?_⟩
  · intro hb
    simp only [getThetaZScore]
    rw [hp, (avg_preserves prim W fs st).2.1, hb]
  · have hfst2 : (calculateAverageThetaPower prim W fs
        { st with powerHistory := pushHistory st.powerHistory p }).1 = some p := by
      rw [avg_fst_history_free]
      exact hp
    have hsnd2 := avg_snd_of_some prim W fs
      { st with powerHistory := pushHistory st.powerHistory p } p hfst2
    rw [state_snd, zscore_snd, hz2, hsnd2]

/-- Witness for C10: the fixture state with no baseline returns an
undefined z-score, yet two queries in a row leave two history entries. -/
theorem c10_witness :
    (getThetaState primTest 2 200 ((getThetaZScore primTest 2 200 stNoBase).2)).2.powerHistory =
      pushHistory (pushHistory stNoBase.powerHistory 0) 0 ∧
    (getThetaZScore primTest 2 200 stNoBase).1 = none := by
  have h := c10_history_side_effect primTest 2 200 stNoBase 0 (avg_fixture none none [])
  exact ⟨h.2.2.2, h.2.2.1 rfl⟩

/-- Folding ingest batches for one channel keeps the buffer equal to the
last W samples of everything ingested so far. -/
theorem foldl_update_invariant (W : ℕ) (ch : String) (batches : List (List ℚ))
    (st : ProcState) (acc : List ℚ)
    (h : lookupBuf st.buffers ch = some (takeLast W acc)) :
    lookupBuf ((batches.foldl (fun s b => update W s ch b) st).buffers) ch =
      some (takeLast W (acc ++ batches.flatten)) := by
  induction batches generalizing st acc with
  | nil => simpa using h
  | cons b bs ih =>
      simp only [List.foldl_cons, List.flatten_cons]
      have hu : lookupBuf (update W st ch b).buffers ch = some (takeLast W (acc ++ b)) := by
        rw [update_lookup, h]
        simp only [Option.getD_some]
        rw [takeLast_takeLast_append]
      rw [ih (update W st ch b) (acc ++ b) hu, List.append_assoc]

/-- C7: ingesting a nonempty sequence of batches into a previously unknown
channel creates its buffer (rather than failing) and leaves it holding
exactly the last W samples of the concatenated stream in arrival order:
when at most W samples were ingested the buffer holds all of them in
order, the stream always splits as a discarded prefix followed by the
retained suffix (strict FIFO eviction of the oldest), the buffer length is
the minimum of W and the stream length, and no update can ever leave any
buffer longer than its capacity W. -/
theorem c7_buffer_fifo (W : ℕ) (ch : String) (b0 : List ℚ) (bs : List (List ℚ))
    (st : ProcState) (h : lookupBuf st.buffers ch = none) :
    (lookupBuf (((b0 :: bs).foldl (fun s b => update W s ch b) st).buffers) ch =
        some (takeLast W (b0 :: bs).flatten)) ∧
    (takeLast W (b0 :: bs).flatten).length = min W (b0 :: bs).flatten.length ∧
    ((b0 :: bs).flatten.length ≤ W → takeLast W (b0 :: bs).flatten = (b0 :: bs).flatten) ∧
    (∃ pre, (b0 :: bs).flatten = pre ++ takeLast W (b0 :: bs).flatten) ∧
    (∀ (st' : ProcState) (ch' : String) (xs : List ℚ) (q : String × List ℚ),
      (∀ r ∈ st'.buffers, r.2.length ≤ W) → q ∈ (update W st' ch' xs).buffers →
      q.2.length ≤ W) := by
  refine ⟨?_, takeLast_length _ _, takeLast_of_length_le _ _, exists_prefix_takeLast _ _, ?_⟩
  · simp only [List.foldl_cons, List.flatten_cons]
    have hu : lookupBuf (update W st ch b0).buffers ch = some (takeLast W b0) := by
      rw [update_lookup, h]
      rfl
    have := foldl_update_invariant W ch bs (update W st ch b0) b0 (by simpa using hu)
    simpa using this
  · intro st' ch' xs q hall hq
    simp only [update] at hq
    rcases mem_setBuf _ _ _ _ hq with h1 | h1
    · rw [h1]
      have := takeLast_length W (((lookupBuf st'.buffers ch').getD []) ++ xs)
      simp only [this]
      exact min_le_left _ _
    · exact hall q h1

/-- Witness for C7: ingesting [1,2] then [3,4] into a fresh channel with
capacity 3 leaves exactly the last three samples in order. -/
theorem c7_witness :
    lookupBuf ((([[(1:ℚ), 2], [3, 4]]).foldl (fun s b => update 3 s "ch0" b)
      initProcState).buffers) "ch0" = some [2, 3, 4] := by
  have h := (c7_buffer_fifo 3 "ch0" [(1:ℚ), 2] [[3, 4]] initProcState rfl).1
  rw [h]
  norm_num [takeLast]

/-- C2 counterexample: a full 20-sample window (alternating plus and minus
1000) for which the code returns None through its in-code amplitude guard,
while the spec pipeline returns a defined power value for the same window
(shown with the identity in the theta-filter slot; definedness does not
depend on that choice). The claim promises a defined value equal to the
spec pipeline for every full buffer, so it fails here. -/
theorem c2_counterexample :
    cexBuf.length = 20 ∧
    calcThetaPowerBuf primTest 20 200 cexBuf = none ∧
    (specBandPower primTest id 20 200 cexBuf).isSome = true := by
  refine ⟨by norm_num [cexBuf], ?_, ?_⟩
  · rw [calcThetaPowerBuf]
    norm_num [cexBuf, preprocess, primTest, listMean, maxAbs]
  · rw [specBandPower]
    norm_num [cexBuf]

/-- C2 amended: for a known channel, the power is undefined when the
buffer holds fewer than W samples; with a full buffer it is undefined when
the preprocessed window exceeds the 100 microvolt in-code guard, and
otherwise equals the theta-band average of squared DFT magnitudes of the
preprocessed window itself (the theta bandpass extractor is not applied),
a value that is always non-negative. -/
theorem c2_theta_power_amended (prim : Prim) (W fs : ℕ) (st : ProcState) (ch : String)
    (buf : List ℚ) (hb : lookupBuf st.buffers ch = some buf) :
    (buf.length < W → calculateThetaPower prim W fs st ch = none) ∧
    (¬buf.length < W → 100 < maxAbs (preprocess prim buf) →
      calculateThetaPower prim W fs st ch = none) ∧
    (¬buf.length < W → maxAbs (preprocess prim buf) ≤ 100 →
      calculateThetaPower prim W fs st ch =
        some (spectralThetaPower prim fs buf.length (preprocess prim buf))) ∧
    0 ≤ spectralThetaPower prim fs buf.length (preprocess prim buf) := by
  refine ⟨?_, ?_, ?_, spectralThetaPower_nonneg _ _ _ _⟩
  · intro h1
    simp only [calculateThetaPower, hb, calcThetaPowerBuf]
    rw [if_pos h1]
  · intro h1 h2
    simp only [calculateThetaPower, hb, calcThetaPowerBuf]
    rw [if_neg h1, if_pos h2]
  · intro h1 h2
    simp only [calculateThetaPower, hb, calcThetaPowerBuf]
    rw [if_neg h1, if_neg (not_lt.mpr h2)]

/-- Witness for C2 amended: the fixture channel is full and clean, so its
power is the non-negative spectral value of its preprocessed window. -/
theorem c2_witness :
    calculateThetaPower primTest 2 200 stNoBase "ch0" =
      some (spectralThetaPower primTest 200 bufPM.length (preprocess primTest bufPM)) ∧
    0 ≤ spectralThetaPower primTest 200 bufPM.length (preprocess primTest bufPM) := by
  have h := c2_theta_power_amended primTest 2 200 stNoBase "ch0" bufPM
    (by simp [stNoBase, lookupBuf])
  exact ⟨h.2.2.1 (by norm_num [bufPM])
    (by norm_num [bufPM, preprocess, primTest, listMean, maxAbs]), h.2.2.2⟩

/-- C3 counterexample: a raw window of constant 150 microvolts fails the
Artifact Rejector (raw amplitude above the 100 threshold), yet the
integrated pipeline still computes a power for that channel and a defined
average, because its guard runs only after mean removal, where the window
becomes all zeros. The claim says a raw-dirty window is skipped entirely
and the average is undefined when no channel qualifies, so it fails here. -/
theorem c3_counterexample :
    isClean hotBuf = false ∧
    ((calculateAverageThetaPower primTest 20 200 stHot).1).isSome = true := by
  constructor
  · norm_num [isClean, hotBuf, maxAbs]
  · have h : calcThetaPowerBuf primTest 20 200 hotBuf =
        some (spectralThetaPower primTest 200 20 (preprocess primTest hotBuf)) := by
      rw [calcThetaPowerBuf]
      norm_num [hotBuf, preprocess, primTest, listMean, maxAbs]
    rw [avg_fst]
    simp [stHot, h]

/-- C3 amended: the artifact guard of the integrated pipeline is the
amplitude-only threshold on the preprocessed window inside the power
computation (there is no gradient check and no raw-window check); a
channel whose guard trips contributes nothing, the cycle average is the
mean over the channels that do contribute, and it is undefined (None, not
zero) exactly when no channel qualifies. -/
theorem c3_average_power_amended (prim : Prim) (W fs : ℕ) (st : ProcState) :
    ((calculateAverageThetaPower prim W fs st).1 = none ↔
      st.buffers.filterMap (fun p => calcThetaPowerBuf prim W fs p.2) = []) ∧
    (∀ buf : List ℚ, ¬buf.length < W → 100 < maxAbs (preprocess prim buf) →
      calcThetaPowerBuf prim W fs buf = none) ∧
    (st.buffers.filterMap (fun p => calcThetaPowerBuf prim W fs p.2) ≠ [] →
      (calculateAverageThetaPower prim W fs st).1 =
        some (listMean (st.buffers.filterMap (fun p => calcThetaPowerBuf prim W fs p.2)))) := by
  refine ⟨?_, ?_, ?_⟩
  · rw [avg_fst]
    split
    · next he =>
        simp only [List.isEmpty_eq_true] at he
        simp [he]
    · next he =>
        simp only [List.isEmpty_eq_true] at he
        simp [he]
  · intro buf h1 h2
    simp only [calcThetaPowerBuf]
    rw [if_neg h1, if_pos h2]
  · intro hne
    rw [avg_fst, if_neg (by simpa using hne)]

/-- Witness for C3 amended: the fixture channel qualifies, so the average
is the mean of the contributed powers. -/
theorem c3_witness :
    (calculateAverageThetaPower primTest 2 200 stNoBase).1 =
      some (listMean (stNoBase.buffers.filterMap
        (fun p => calcThetaPowerBuf primTest 2 200 p.2))) := by
  refine (c3_average_power_amended primTest 2 200 stNoBase).2.2 ?_
  simp [stNoBase, calc_bufPM]

/-- C9 counterexample: a five-sample window of zeros is rejected by
is_clean (minimum-length rule) but the classifier reports it clean: the
classifier applies no minimum-length rejection, contradicting the claim
that short windows are reported non-clean by the classifier as well. -/
theorem c9_counterexample :
    isClean [(0:ℚ), 0, 0, 0, 0] = false ∧
    getArtifactType [(0:ℚ), 0, 0, 0, 0] = some "clean" := by
  constructor
  · norm_num [isClean]
  · norm_num [getArtifactType, maxAbs, diffs]

/-- C9 amended: is_clean rejects every window shorter than 10 samples and
otherwise accepts exactly when the amplitude bound (100) and the gradient
bound (50, over successive differences) both hold; the classifier reports
amplitude before gradient when both trip but performs no minimum-length
check of its own (a short quiet window is reported clean). -/
theorem c9_artifact_rejector_amended (data : List ℚ) :
    (data.length < 10 → isClean data = false) ∧
    (¬data.length < 10 →
      (isClean data = true ↔ maxAbs data ≤ 100 ∧ maxAbs (diffs data) ≤ 50)) ∧
    (data ≠ [] → 100 < maxAbs data → getArtifactType data = some "amplitude") ∧
    (data ≠ [] → diffs data ≠ [] → maxAbs data ≤ 100 → 50 < maxAbs (diffs data) →
      getArtifactType data = some "gradient") ∧
    (data ≠ [] → diffs data ≠ [] → maxAbs data ≤ 100 → maxAbs (diffs data) ≤ 50 →
      getArtifactType data = some "clean") := by
  refine ⟨?_, ?_, ?_, ?_, ?_⟩
  · intro h
    rw [isClean, if_pos h]
  · intro h
    rw [isClean, if_neg h]
    split_ifs with h2 h3
    · simp only [Bool.false_eq_true, false_iff]
      exact fun hc => absurd h2 (not_lt.mpr hc.1)
    · simp only [Bool.false_eq_true, false_iff]
      exact fun hc => absurd h3 (not_lt.mpr hc.2)
    · simp only [true_iff]
      exact ⟨le_of_not_lt h2, le_of_not_lt h3⟩
  · intro hne hamp
    rw [getArtifactType, if_neg (by simpa using hne), if_pos hamp]
  · intro hne hd hamp hgr
    rw [getArtifactType, if_neg (by simpa using hne), if_neg (not_lt.mpr hamp),
      if_neg (by simpa using hd), if_pos hgr]
  · intro hne hd hamp hgr
    rw [getArtifactType, if_neg (by simpa using hne), if_neg (not_lt.mpr hamp),
      if_neg (by simpa using hd), if_neg (not_lt.mpr hgr)]

/-- Witness for C9 amended: a window tripping the amplitude bound is
classified amplitude, and one tripping only the gradient bound is
classified gradient. -/
theorem c9_witness :
    getArtifactType [(200:ℚ), 0, 200, 0, 200] = some "amplitude" ∧
    getArtifactType [(0:ℚ), 60, 0, 60, 0] = some "gradient" := by
  constructor
  · exact (c9_artifact_rejector_amended [(200:ℚ), 0, 200, 0, 200]).2.2.1
      (by simp) (by norm_num [maxAbs])
  · exact (c9_artifact_rejector_amended [(0:ℚ), 60, 0, 60, 0]).2.2.2.1
      (by simp) (by simp [diffs]) (by norm_num [maxAbs])
      (by norm_num [maxAbs, diffs])

end FlowState
